import Mathlib

/-!
Verification of the topology-aware placement planner
(`src/regrasping_demo/homotopy_planner.py`).

Shallow embedding conventions:
* 2D pixel points (numpy arrays of shape [2]) are `V := ℚ × ℚ`; scalar
  arithmetic the source performs in IEEE doubles is idealised as exact
  rational arithmetic, except genuinely transcendental operations
  (`np.linalg.norm`, `np.arctan2`, `np.pi`), which are modelled over `ℝ`.
* `np.random.RandomState(0)` (re-created with the fixed seed 0 on every
  invocation of `plan`) is modelled by an explicit stream `u : ℕ → ℚ` of
  unit-interval draws, consumed two per sampling iteration; because the
  seed is a constant, the stream is the same for every invocation with
  identical inputs.
* the module-level generator `np.random` (used once per invocation, for
  the fallback perturbation `np.random.uniform(-150, 150, [2])`) carries
  state across calls, so its per-invocation draw is an explicit input
  `g : V` of the model.
* `predictions` enters `plan` only through `get_combined_mask`,
  `get_masks` and `get_center_of_mass` (defined outside this repository's
  embedded sources); their outputs — the inflated obstacle mask and the
  obstacle centroid list — are deterministic functions of `predictions`
  and are taken as `plan`'s inputs here.
* `plan`'s matplotlib block (source lines 136-153) is diagnostic, with one
  exception that touches the returned value: line 150 indexes the centroid
  array as 2-D (`obstacle_coms[:, 0]`), and when the centroid list is
  empty that array is the 1-D `np.array([])`, so the call raises
  IndexError before the fallback draw, the degeneracy check and the
  sampling loop.  `plan` therefore returns `Option (Bool × V)`, with
  `none` modelling that raise.
-/

/-- A 2D point / vector in pixel coordinates (a numpy array of shape [2]). -/
abbrev V : Type := ℚ × ℚ

/-- Python's `int()` applied to a rational: truncation toward zero. -/
def pyint (x : ℚ) : ℤ := if x < 0 then ⌈x⌉ else ⌊x⌋

/-- `make_tau(start, end, waypoints)` from the source: the piecewise linear
path `start --> waypoints --> end`, parametrised on `[0,1]`, with the
control points evenly distributed through time.  `all_points` is
`np.concatenate([start[None], waypoints, end[None]])`.  Indexing
`all_points[waypoint_idx]` is modelled by `List.getD` at
`waypoint_idx.toNat`, which agrees with Python list indexing whenever
`waypoint_frac ≥ 0` (all callers evaluate the path at `t ∈ [0, 1]`). -/
def make_tau (start e : V) (waypoints : List V) : ℚ → V := fun t =>
  if t = 0 then start
  else if t = 1 then e
  else
    let all_points : List V := start :: (waypoints ++ [e])
    let waypoint_frac : ℚ := t * ((all_points.length : ℚ) - 1)
    let waypoint_idx : ℤ := pyint waypoint_frac
    let alpha : ℚ := waypoint_frac - (waypoint_idx : ℚ)
    (1 - alpha) • all_points.getD waypoint_idx.toNat 0 +
      alpha • all_points.getD (waypoint_idx.toNat + 1) 0

lemma pyint_of_nonneg {x : ℚ} (hx : 0 ≤ x) : pyint x = ⌊x⌋ := by
  unfold pyint
  rw [if_neg (not_lt.mpr hx)]

/-- C5: endpoint exactness of the path constructor. -/
theorem make_tau_endpoints (start e : V) (waypoints : List V) :
    make_tau start e waypoints 0 = start ∧ make_tau start e waypoints 1 = e := by
  constructor <;> simp [make_tau]

/-- C6: interior interpolation formula of the path constructor. -/
theorem make_tau_interior (start e : V) (waypoints : List V) (t : ℚ)
    (h0 : 0 < t) (h1 : t < 1) :
    (make_tau start e waypoints t =
      (1 - (t * ((waypoints.length : ℚ) + 1) - ⌊t * ((waypoints.length : ℚ) + 1)⌋)) •
          (start :: (waypoints ++ [e])).getD (⌊t * ((waypoints.length : ℚ) + 1)⌋).toNat 0 +
        (t * ((waypoints.length : ℚ) + 1) - ⌊t * ((waypoints.length : ℚ) + 1)⌋) •
          (start :: (waypoints ++ [e])).getD ((⌊t * ((waypoints.length : ℚ) + 1)⌋).toNat + 1) 0) ∧
    make_tau start e [] t = (1 - t) • start + t • e := by
  constructor
  · unfold make_tau
    rw [if_neg (ne_of_gt h0), if_neg (ne_of_lt h1)]
    have hlen : ((start :: (waypoints ++ [e])).length : ℚ) - 1 =
        (waypoints.length : ℚ) + 1 := by
      push_cast [List.length_cons, List.length_append, List.length_singleton,
        List.length_nil]
      ring
    dsimp only
    rw [hlen, pyint_of_nonneg (by positivity)]
  · unfold make_tau
    rw [if_neg (ne_of_gt h0), if_neg (ne_of_lt h1)]
    have hlen : ((start :: (([] : List V) ++ [e])).length : ℚ) - 1 = 1 := by
      norm_num
    dsimp only
    rw [hlen, mul_one, pyint_of_nonneg h0.le,
      Int.floor_eq_zero_iff.mpr (Set.mem_Ico.mpr ⟨h0.le, h1⟩)]
    norm_num [List.getD]

/-- Witness for C6 at `t = 1/2` with one interior waypoint. -/
theorem make_tau_interior_witness :
    (make_tau ((0 : ℚ), (0 : ℚ)) ((2 : ℚ), (2 : ℚ)) [((5 : ℚ), (1 : ℚ))] (1 / 2) =
      (1 - ((1 / 2 : ℚ) * (((([((5 : ℚ), (1 : ℚ))] : List V).length : ℚ)) + 1) -
          ⌊(1 / 2 : ℚ) * ((([((5 : ℚ), (1 : ℚ))] : List V).length : ℚ) + 1)⌋)) •
          (((0 : ℚ), (0 : ℚ)) :: ([((5 : ℚ), (1 : ℚ))] ++ [((2 : ℚ), (2 : ℚ))])).getD
            (⌊(1 / 2 : ℚ) * ((([((5 : ℚ), (1 : ℚ))] : List V).length : ℚ) + 1)⌋).toNat 0 +
        ((1 / 2 : ℚ) * ((([((5 : ℚ), (1 : ℚ))] : List V).length : ℚ) + 1) -
          ⌊(1 / 2 : ℚ) * ((([((5 : ℚ), (1 : ℚ))] : List V).length : ℚ) + 1)⌋) •
          (((0 : ℚ), (0 : ℚ)) :: ([((5 : ℚ), (1 : ℚ))] ++ [((2 : ℚ), (2 : ℚ))])).getD
            ((⌊(1 / 2 : ℚ) * ((([((5 : ℚ), (1 : ℚ))] : List V).length : ℚ) + 1)⌋).toNat + 1) 0) ∧
    make_tau ((0 : ℚ), (0 : ℚ)) ((2 : ℚ), (2 : ℚ)) [] (1 / 2) =
      (1 - (1 / 2 : ℚ)) • (((0 : ℚ), (0 : ℚ)) : V) + (1 / 2 : ℚ) • (((2 : ℚ), (2 : ℚ)) : V) :=
  make_tau_interior ((0 : ℚ), (0 : ℚ)) ((2 : ℚ), (2 : ℚ)) [((5 : ℚ), (1 : ℚ))] (1 / 2)
    (by norm_num) (by norm_num)

/-- Model of `np.arctan2 y x`: the argument of the complex number `x + i·y`,
with values in `(-π, π]`. -/
noncomputable def atan2 (y x : ℝ) : ℝ := Complex.arg ⟨x, y⟩

/-- `angle_between(w, v)` from the source:
`np.arctan2(w[1]*v[0] - v[1]*w[0], w[0]*v[0] + w[1]*v[1])`, the signed angle
in radians between the vectors. -/
noncomputable def angle_between (w v : V) : ℝ :=
  atan2 ((w.2 : ℝ) * (v.1 : ℝ) - (v.2 : ℝ) * (w.1 : ℝ))
    ((w.1 : ℝ) * (v.1 : ℝ) + (w.2 : ℝ) * (v.2 : ℝ))

/-- The points the winding loop of `is_homotopy_diff` visits:
`for t in np.arange(0, 2, dt)` with `dt = 0.05` yields `t = i·0.05 = i/20`
for `i = 0, …, 39` (idealised to exact arithmetic), and the branch
`if t < 1: z = tau1(t) else: z = tau2(2 - t)` is `i < 20`. -/
def homotopy_loop_points (tau1 tau2 : ℚ → V) : List V :=
  (List.range 40).map fun i =>
    if i < 20 then tau1 ((i : ℚ) / 20) else tau2 (2 - (i : ℚ) / 20)

/-- The accumulation loop of `is_homotopy_diff` for one obstacle center:
starting from `integral_angle = 0` and `last_vec = None`, for each visited
point `z` set `vec = z - object_center` and, when `last_vec` is not `None`,
add `angle_between(vec, last_vec)` to the integral.  Returns the final
`(last_vec, integral_angle)` pair. -/
noncomputable def winding_sweep (ps : List V) (object_center : V) : Option V × ℝ :=
  ps.foldl
    (fun acc z =>
      let vec : V := z - object_center
      match acc.1 with
      | none => (some vec, acc.2)
      | some last_vec => (some vec, acc.2 + angle_between vec last_vec))
    (none, 0)

/-- The accumulated `integral_angle` of the sweep for one obstacle center. -/
noncomputable def integral_angle (tau1 tau2 : ℚ → V) (object_center : V) : ℝ :=
  (winding_sweep (homotopy_loop_points tau1 tau2) object_center).2

/-- `winding_number = np.round(integral_angle / (2 * np.pi)) * 2 * np.pi`
from the source (`np.round` is idealised as `round`; the two differ only
when the quotient is exactly half-way between two integers). -/
noncomputable def winding_number (tau1 tau2 : ℚ → V) (object_center : V) : ℝ :=
  ((round (integral_angle tau1 tau2 object_center / (2 * Real.pi)) : ℤ) : ℝ) *
    2 * Real.pi

/-- `is_homotopy_diff(hose_points, start, end, place_point, obstacle_centers)`
from the source: compute the winding number of the closed loop
(`tau1` forward, `tau2` backward) for every obstacle center and return
`not np.allclose(windings, 0)`; with `np.allclose`'s default tolerances
(`rtol=1e-5`, `atol=1e-8`) and target `0`, a winding number `w` is "close"
iff `|w| ≤ 1e-8`. -/
noncomputable def is_homotopy_diff (hose_points : List V) (start e place_point : V)
    (obstacle_centers : List V) : Prop :=
  let tau1 := make_tau start e hose_points
  let tau2 := make_tau start e [place_point]
  let windings := obstacle_centers.map (winding_number tau1 tau2)
  ¬ ∀ w ∈ windings, |w| ≤ 1 / 10 ^ 8

lemma winding_number_small_iff (tau1 tau2 : ℚ → V) (c : V) :
    |winding_number tau1 tau2 c| ≤ 1 / 10 ^ 8 ↔
      round (integral_angle tau1 tau2 c / (2 * Real.pi)) = 0 := by
  unfold winding_number
  constructor
  · intro h
    by_contra hk
    have h1 : (1 : ℝ) ≤ |((round (integral_angle tau1 tau2 c / (2 * Real.pi)) : ℤ) : ℝ)| := by
      exact_mod_cast Int.one_le_abs (by omega)
    have hpi := Real.pi_gt_three
    have habs : |((round (integral_angle tau1 tau2 c / (2 * Real.pi)) : ℤ) : ℝ) * 2 * Real.pi| =
        |((round (integral_angle tau1 tau2 c / (2 * Real.pi)) : ℤ) : ℝ)| * 2 * Real.pi := by
      rw [abs_mul, abs_mul, abs_two, abs_of_pos Real.pi_pos]
    rw [habs] at h
    nlinarith
  · intro hk
    rw [hk]
    norm_num

/-- C2: the homotopy comparator returns true iff at least one obstacle
center has a nonzero winding number, where the winding number is the
accumulated signed-angle sweep rounded to the nearest multiple of 2π and
winding numbers within the `np.allclose` epsilon of zero count as zero. -/
theorem is_homotopy_diff_iff (hose_points : List V) (start e place_point : V)
    (obstacle_centers : List V) :
    is_homotopy_diff hose_points start e place_point obstacle_centers ↔
      ∃ c ∈ obstacle_centers,
        round (integral_angle (make_tau start e hose_points)
          (make_tau start e [place_point]) c / (2 * Real.pi)) ≠ 0 := by
  unfold is_homotopy_diff
  dsimp only
  constructor
  · intro h
    by_contra h2
    push_neg at h2
    apply h
    intro w hw
    rcases List.mem_map.mp hw with ⟨c, hc, rfl⟩
    exact (winding_number_small_iff _ _ _).mpr (h2 c hc)
  · rintro ⟨c, hc, hk⟩ h
    exact hk ((winding_number_small_iff _ _ _).mp
      (h _ (List.mem_map_of_mem _ hc)))

/-- Model of `np.linalg.norm` on a 2-vector: the Euclidean norm. -/
noncomputable def np_norm (v : V) : ℝ := Real.sqrt ((v.1 : ℝ) ^ 2 + (v.2 : ℝ) ^ 2)

/-- `relative_distance_deviation(dist_to_start0, sample_px, start_px)` from
the source: `np.square((dist_to_start - dist_to_start0) / dist_to_start0)`
with `dist_to_start = np.linalg.norm(sample_px - start_px)`. -/
noncomputable def relative_distance_deviation (dist_to_start0 : ℝ)
    (sample_px start_px : V) : ℝ :=
  ((np_norm (sample_px - start_px) - dist_to_start0) / dist_to_start0) ^ 2

/-- Model of `np.allclose a b` on 2-vectors with numpy's default tolerances
(`rtol = 1e-5`, `atol = 1e-8`): componentwise
`|a - b| ≤ atol + rtol * |b|`. -/
def np_allclose (a b : V) : Prop :=
  |a.1 - b.1| ≤ 1 / 10 ^ 8 + 1 / 10 ^ 5 * |b.1| ∧
    |a.2 - b.2| ≤ 1 / 10 ^ 8 + 1 / 10 ^ 5 * |b.2|

instance (a b : V) : Decidable (np_allclose a b) := by
  unfold np_allclose
  infer_instance

lemma np_allclose_self (a : V) : np_allclose a a := by
  unfold np_allclose
  constructor <;> · rw [sub_self, abs_zero]; positivity

/-- An H×W obstacle mask (`inflated_obstacles_mask`): `h = shape[0]` rows,
`w = shape[1]` columns, and `data row col` the pixel value. -/
structure Mask where
  h : ℕ
  w : ℕ
  data : ℕ → ℕ → ℕ

/-- `is_in_collision(inflated_obstacles_mask, sample_px)` from the source:
out-of-bounds samples are not in collision, otherwise the pixel
`mask[int(sample_px[1]), int(sample_px[0])]` is tested for being nonzero. -/
def is_in_collision (m : Mask) (sample_px : V) : Prop :=
  if sample_px.1 < 0 ∨ (m.w : ℚ) ≤ sample_px.1 then False
  else if sample_px.2 < 0 ∨ (m.h : ℚ) ≤ sample_px.2 then False
  else m.data (pyint sample_px.2).toNat (pyint sample_px.1).toNat ≠ 0

instance (m : Mask) (p : V) : Decidable (is_in_collision m p) := by
  unfold is_in_collision
  infer_instance

/-- C8: out-of-bounds collision policy — any sample with x outside `[0, W)`
or y outside `[0, H)` is collision-free, and an in-bounds sample is in
collision exactly when the inflated mask is nonzero at the pixel obtained
by truncating the sample's coordinates to integers. -/
theorem is_in_collision_policy (m : Mask) (sample_px : V) :
    ((sample_px.1 < 0 ∨ (m.w : ℚ) ≤ sample_px.1 ∨ sample_px.2 < 0 ∨
        (m.h : ℚ) ≤ sample_px.2) → ¬ is_in_collision m sample_px) ∧
    (0 ≤ sample_px.1 → sample_px.1 < (m.w : ℚ) → 0 ≤ sample_px.2 →
      sample_px.2 < (m.h : ℚ) →
      (is_in_collision m sample_px ↔
        m.data (⌊sample_px.2⌋).toNat (⌊sample_px.1⌋).toNat ≠ 0)) := by
  constructor
  · intro hoob hcol
    unfold is_in_collision at hcol
    by_cases hx : sample_px.1 < 0 ∨ (m.w : ℚ) ≤ sample_px.1
    · rw [if_pos hx] at hcol
      exact hcol
    · rw [if_neg hx] at hcol
      by_cases hy : sample_px.2 < 0 ∨ (m.h : ℚ) ≤ sample_px.2
      · rw [if_pos hy] at hcol
        exact hcol
      · push_neg at hx hy
        rcases hoob with hbad | hbad | hbad | hbad
        · exact absurd hbad (not_lt.mpr hx.1)
        · exact absurd hbad (not_le.mpr hx.2)
        · exact absurd hbad (not_lt.mpr hy.1)
        · exact absurd hbad (not_le.mpr hy.2)
  · intro hx0 hxw hy0 hyh
    unfold is_in_collision
    rw [if_neg (by push_neg; exact ⟨hx0, hxw⟩),
      if_neg (by push_neg; exact ⟨hy0, hyh⟩),
      pyint_of_nonneg hy0, pyint_of_nonneg hx0]

lemma np_norm_pos {a b : V} (hne : a ≠ b) : 0 < np_norm (a - b) := by
  unfold np_norm
  apply Real.sqrt_pos.mpr
  have hsub : a - b ≠ 0 := sub_ne_zero.mpr hne
  rcases (not_and_or.mp (fun hc => hsub (Prod.ext_iff.mpr hc))) with hc | hc
  · have hq : ((a - b).1 : ℝ) ≠ 0 := by exact_mod_cast hc
    have := lt_of_le_of_ne (sq_nonneg ((a - b).1 : ℝ)) (Ne.symm (pow_ne_zero 2 hq))
    nlinarith [sq_nonneg ((a - b).2 : ℝ)]
  · have hq : ((a - b).2 : ℝ) ≠ 0 := by exact_mod_cast hc
    have := lt_of_le_of_ne (sq_nonneg ((a - b).2 : ℝ)) (Ne.symm (pow_ne_zero 2 hq))
    nlinarith [sq_nonneg ((a - b).1 : ℝ)]

/-- C10: when the candidate regrasp point is not within `np.allclose`
tolerance of either anchor, the reference distances `dist_to_start0` and
`dist_to_end0` computed by `plan` are strictly positive, so
`relative_distance_deviation` divides by a nonzero denominator and its
value is a nonnegative real. -/
theorem distance_denominators_pos (start e regrasp_px : V)
    (h : ¬ (np_allclose regrasp_px start ∨ np_allclose regrasp_px e)) :
    0 < np_norm (regrasp_px - start) ∧ 0 < np_norm (regrasp_px - e) ∧
    (∀ sample_px, 0 ≤ relative_distance_deviation (np_norm (regrasp_px - start))
      sample_px start) ∧
    (∀ sample_px, 0 ≤ relative_distance_deviation (np_norm (regrasp_px - e))
      sample_px e) := by
  push_neg at h
  have h1 : regrasp_px ≠ start := by
    intro he
    exact h.1 (he ▸ np_allclose_self start)
  have h2 : regrasp_px ≠ e := by
    intro he
    exact h.2 (he ▸ np_allclose_self e)
  refine ⟨np_norm_pos h1, np_norm_pos h2, fun s => ?_, fun s => ?_⟩ <;>
    · unfold relative_distance_deviation
      positivity

/-- Witness for C10 at a concrete non-degenerate input. -/
theorem distance_denominators_pos_witness :
    0 < np_norm ((((100 : ℚ), (100 : ℚ)) : V) - (((0 : ℚ), (0 : ℚ)) : V)) ∧
    0 < np_norm ((((100 : ℚ), (100 : ℚ)) : V) - (((50 : ℚ), (0 : ℚ)) : V)) ∧
    (∀ sample_px, 0 ≤ relative_distance_deviation
      (np_norm ((((100 : ℚ), (100 : ℚ)) : V) - (((0 : ℚ), (0 : ℚ)) : V)))
      sample_px (((0 : ℚ), (0 : ℚ)) : V)) ∧
    (∀ sample_px, 0 ≤ relative_distance_deviation
      (np_norm ((((100 : ℚ), (100 : ℚ)) : V) - (((50 : ℚ), (0 : ℚ)) : V)))
      sample_px (((50 : ℚ), (0 : ℚ)) : V)) :=
  distance_denominators_pos ((0 : ℚ), (0 : ℚ)) ((50 : ℚ), (0 : ℚ))
    ((100 : ℚ), (100 : ℚ)) (by norm_num [np_allclose])

/-- `rng.uniform(lo, hi)`: one draw of the seeded generator, written as
`lo + u * (hi - lo)` with `u` the generator's unit-interval draw. -/
def uniform_draw (u lo hi : ℚ) : ℚ := lo + u * (hi - lo)

/-- `sample_point(rng, h, w, extend_px)` from the source:
`sample_px = rng.uniform(-extend_px, w + extend_px)`,
`sample_py = rng.uniform(-extend_px, h + extend_px)`, with the two unit
draws `u1`, `u2` of the generator made explicit. -/
def sample_point (u1 u2 h w extend_px : ℚ) : V :=
  (uniform_draw u1 (-extend_px) (w + extend_px),
    uniform_draw u2 (-extend_px) (h + extend_px))

/-- The sample drawn at iteration `i` of `plan`'s loop: the `i`-th call of
`sample_point` consumes draws `2*i` and `2*i + 1` of the seeded stream. -/
def plan_samples (u : ℕ → ℚ) (h w extend_px : ℚ) (i : ℕ) : V :=
  sample_point (u (2 * i)) (u (2 * i + 1)) h w extend_px

/-- Scalar `np.clip x lo hi`. -/
def np_clip (x lo hi : ℚ) : ℚ := min (max x lo) hi

/-- `np.clip(p, 0, [w, h])`: componentwise clipping to the frame. -/
def clip_to_frame (p : V) (w h : ℚ) : V := (np_clip p.1 0 w, np_clip p.2 0 h)

/-- `random_place_px = np.clip(regrasp_px + np.random.uniform(-150, 150, [2]),
0, [w, h])` from the source, with `g` the per-invocation draw of the
module-level generator `np.random`. -/
def random_place_px (regrasp_px g : V) (w h : ℚ) : V :=
  clip_to_frame (regrasp_px + g) w h

/-- First-acceptance search: the least index `i < n` satisfying `P`, the
functional rendering of a `for i in range(n): … return` loop (classical
decidability stands in for the float comparisons Python evaluates). -/
noncomputable def first_accept (P : ℕ → Prop) : ℕ → Option ℕ
  | 0 => none
  | n + 1 =>
    match first_accept P n with
    | some i => some i
    | none => @ite _ (P n) (Classical.propDecidable (P n)) (some n) none

/-- The conjunction `all([homotopy_diff, not in_collision, near_start,
near_end, reachable])` tested on one sample inside `plan`'s loop. -/
def accepts (hose_points : List V) (start_px end_px : V) (obstacle_coms : List V)
    (m : Mask) (robot_px : V) (robot_reach_px near_tol : ℚ)
    (dist_to_start0 dist_to_end0 : ℝ) (sample_px : V) : Prop :=
  is_homotopy_diff hose_points start_px end_px sample_px obstacle_coms ∧
    ¬ is_in_collision m sample_px ∧
    relative_distance_deviation dist_to_start0 sample_px start_px < (near_tol : ℝ) ∧
    relative_distance_deviation dist_to_end0 sample_px end_px < (near_tol : ℝ) ∧
    np_norm (robot_px - sample_px) < (robot_reach_px : ℝ)

/-- The predicate `plan`'s loop tests at iteration `i`: the five-way
conjunction `accepts` evaluated on the `i`-th sample, with
`start_px = hose_points[0]`, `end_px = hose_points[-1]` and the reference
distances `dist_to_start0`, `dist_to_end0` of `plan`. -/
def plan_accepts (h w : ℕ) (inflated_data : ℕ → ℕ → ℕ) (obstacle_coms hose_points : List V)
    (regrasp_px robot_px : V) (robot_reach_px extend_px near_tol : ℚ)
    (u : ℕ → ℚ) (i : ℕ) : Prop :=
  accepts hose_points (hose_points.headD 0) (hose_points.getLastD 0) obstacle_coms
    ⟨h, w, inflated_data⟩ robot_px robot_reach_px near_tol
    (np_norm (regrasp_px - hose_points.headD 0))
    (np_norm (regrasp_px - hose_points.getLastD 0))
    (plan_samples u (h : ℚ) (w : ℚ) extend_px i)

/-- `plan(rgb_np, predictions, hose_points, regrasp_px, robot_px,
robot_reach_px, extend_px, near_tol)` from the source.  `rgb_np` enters
only through its shape `(h, w)`; `predictions` enters only through the
inflated obstacle mask (`inflated_data`, an `h × w` surface) and the
obstacle centroids (`obstacle_coms`), both deterministic functions of
`predictions`.  `u` is the unit-draw stream of `np.random.RandomState(0)`
(identical on every invocation, the seed being the constant 0); `g` is
the draw of `np.random.uniform(-150, 150, [2])` from the module-level
generator that this invocation makes when it reaches line 155.  The
matplotlib rendering contributes nothing to the returned pair except at
line 150, where `obstacle_coms[:, 0]` raises IndexError whenever the
centroid list is empty (the 1-D empty array admits no second index);
that raise, which precedes the fallback draw, the degeneracy check and
the loop, is the `none` result. -/
noncomputable def plan (h w : ℕ) (inflated_data : ℕ → ℕ → ℕ) (obstacle_coms : List V)
    (hose_points : List V) (regrasp_px robot_px : V)
    (robot_reach_px extend_px near_tol : ℚ) (u : ℕ → ℚ) (g : V) :
    Option (Bool × V) :=
  let m : Mask := ⟨h, w, inflated_data⟩
  let start_px := hose_points.headD 0
  let end_px := hose_points.getLastD 0
  let dist_to_start0 := np_norm (regrasp_px - start_px)
  let dist_to_end0 := np_norm (regrasp_px - end_px)
  if obstacle_coms = [] then none
  else
    let random_place := random_place_px regrasp_px g (w : ℚ) (h : ℚ)
    if np_allclose regrasp_px start_px ∨ np_allclose regrasp_px end_px then
      some (false, random_place)
    else
      match first_accept (fun i =>
          accepts hose_points start_px end_px obstacle_coms m robot_px
            robot_reach_px near_tol dist_to_start0 dist_to_end0
            (plan_samples u (h : ℚ) (w : ℚ) extend_px i)) 5000 with
      | some i => some (true, plan_samples u (h : ℚ) (w : ℚ) extend_px i)
      | none => some (false, random_place)

lemma plan_accepts_eq (h w : ℕ) (inflated_data : ℕ → ℕ → ℕ)
    (obstacle_coms hose_points : List V) (regrasp_px robot_px : V)
    (robot_reach_px extend_px near_tol : ℚ) (u : ℕ → ℚ) :
    (fun i =>
        accepts hose_points (hose_points.headD 0) (hose_points.getLastD 0)
          obstacle_coms ⟨h, w, inflated_data⟩ robot_px robot_reach_px near_tol
          (np_norm (regrasp_px - hose_points.headD 0))
          (np_norm (regrasp_px - hose_points.getLastD 0))
          (plan_samples u (h : ℚ) (w : ℚ) extend_px i)) =
      plan_accepts h w inflated_data obstacle_coms hose_points regrasp_px robot_px
        robot_reach_px extend_px near_tol u := rfl

lemma first_accept_spec (P : ℕ → Prop) :
    ∀ n, (first_accept P n = none ↔ ∀ i < n, ¬ P i) ∧
      (∀ i, first_accept P n = some i ↔ i < n ∧ P i ∧ ∀ j < i, ¬ P j) := by
  intro n
  induction n with
  | zero =>
    constructor
    · simp [first_accept]
    · intro i
      simp [first_accept]
  | succ n ih =>
    obtain ⟨ihn, ihs⟩ := ih
    constructor
    · unfold first_accept
      rcases hfa : first_accept P n with _ | k
      · by_cases hp : P n
        · rw [if_pos hp]
          constructor
          · intro hc
            exact Option.noConfusion hc
          · intro hall
            exact absurd hp (hall n (Nat.lt_succ_self n))
        · rw [if_neg hp]
          constructor
          · intro _ i hi
            rcases Nat.lt_succ_iff_lt_or_eq.mp hi with hlt | rfl
            · exact (ihn.mp hfa) i hlt
            · exact hp
          · intro _
            rfl
      · constructor
        · intro hc
          exact Option.noConfusion hc
        · intro hall
          obtain ⟨hk, hPk, _⟩ := (ihs k).mp hfa
          exact ((hall k (Nat.lt_succ_of_lt hk)) hPk).elim
    · intro i
      unfold first_accept
      rcases hfa : first_accept P n with _ | k
      · by_cases hp : P n
        · rw [if_pos hp]
          constructor
          · intro hc
            obtain rfl : n = i := Option.some.inj hc
            exact ⟨Nat.lt_succ_self _, hp, fun j hj => (ihn.mp hfa) j hj⟩
          · rintro ⟨hi, hPi, hmin⟩
            have hni : n = i := by
              rcases lt_trichotomy n i with hlt | heq | hgt
              · exact absurd hp (hmin n hlt)
              · exact heq
              · exact absurd hPi ((ihn.mp hfa) i hgt)
            rw [hni]
        · rw [if_neg hp]
          constructor
          · intro hc
            exact Option.noConfusion hc
          · rintro ⟨hi, hPi, hmin⟩
            exfalso
            rcases Nat.lt_succ_iff_lt_or_eq.mp hi with hlt | rfl
            · exact (ihn.mp hfa) i hlt hPi
            · exact hp hPi
      · constructor
        · intro hc
          obtain rfl : k = i := Option.some.inj hc
          obtain ⟨hk, hPk, hmin⟩ := (ihs k).mp hfa
          exact ⟨Nat.lt_succ_of_lt hk, hPk, hmin⟩
        · rintro ⟨hi, hPi, hmin⟩
          obtain ⟨hk, hPk, hkmin⟩ := (ihs k).mp hfa
          have hki : k = i := by
            rcases lt_trichotomy k i with hlt | heq | hgt
            · exact absurd hPk (hmin k hlt)
            · exact heq
            · exact absurd hPi (hkmin i hgt)
          rw [hki]


lemma plan_of_empty_coms {h w : ℕ} {inflated_data : ℕ → ℕ → ℕ}
    {hose_points : List V} {regrasp_px robot_px : V}
    {robot_reach_px extend_px near_tol : ℚ} {u : ℕ → ℚ} {g : V} :
    plan h w inflated_data [] hose_points regrasp_px robot_px
      robot_reach_px extend_px near_tol u g = none := by
  unfold plan
  dsimp only
  rw [if_pos rfl]

lemma plan_of_degenerate {h w : ℕ} {inflated_data : ℕ → ℕ → ℕ}
    {obstacle_coms hose_points : List V} {regrasp_px robot_px : V}
    {robot_reach_px extend_px near_tol : ℚ} {u : ℕ → ℚ} {g : V}
    (hcoms : obstacle_coms ≠ [])
    (hdeg : np_allclose regrasp_px (hose_points.headD 0) ∨
      np_allclose regrasp_px (hose_points.getLastD 0)) :
    plan h w inflated_data obstacle_coms hose_points regrasp_px robot_px
        robot_reach_px extend_px near_tol u g =
      some (false, random_place_px regrasp_px g (w : ℚ) (h : ℚ)) := by
  unfold plan
  dsimp only
  rw [if_neg hcoms, if_pos hdeg]

lemma plan_of_nondegenerate {h w : ℕ} {inflated_data : ℕ → ℕ → ℕ}
    {obstacle_coms hose_points : List V} {regrasp_px robot_px : V}
    {robot_reach_px extend_px near_tol : ℚ} {u : ℕ → ℚ} {g : V}
    (hcoms : obstacle_coms ≠ [])
    (hdeg : ¬ (np_allclose regrasp_px (hose_points.headD 0) ∨
      np_allclose regrasp_px (hose_points.getLastD 0))) :
    plan h w inflated_data obstacle_coms hose_points regrasp_px robot_px
        robot_reach_px extend_px near_tol u g =
      match first_accept (plan_accepts h w inflated_data obstacle_coms hose_points
          regrasp_px robot_px robot_reach_px extend_px near_tol u) 5000 with
      | some i => some (true, plan_samples u (h : ℚ) (w : ℚ) extend_px i)
      | none => some (false, random_place_px regrasp_px g (w : ℚ) (h : ℚ)) := by
  unfold plan
  dsimp only
  rw [if_neg hcoms, if_neg hdeg, plan_accepts_eq]

lemma plan_of_some {h w : ℕ} {inflated_data : ℕ → ℕ → ℕ}
    {obstacle_coms hose_points : List V} {regrasp_px robot_px : V}
    {robot_reach_px extend_px near_tol : ℚ} {u : ℕ → ℚ} {g : V} {i : ℕ}
    (hcoms : obstacle_coms ≠ [])
    (hdeg : ¬ (np_allclose regrasp_px (hose_points.headD 0) ∨
      np_allclose regrasp_px (hose_points.getLastD 0)))
    (hfa : first_accept (plan_accepts h w inflated_data obstacle_coms hose_points
      regrasp_px robot_px robot_reach_px extend_px near_tol u) 5000 = some i) :
    plan h w inflated_data obstacle_coms hose_points regrasp_px robot_px
        robot_reach_px extend_px near_tol u g =
      some (true, plan_samples u (h : ℚ) (w : ℚ) extend_px i) := by
  rw [plan_of_nondegenerate hcoms hdeg, hfa]

lemma plan_of_none {h w : ℕ} {inflated_data : ℕ → ℕ → ℕ}
    {obstacle_coms hose_points : List V} {regrasp_px robot_px : V}
    {robot_reach_px extend_px near_tol : ℚ} {u : ℕ → ℚ} {g : V}
    (hcoms : obstacle_coms ≠ [])
    (hdeg : ¬ (np_allclose regrasp_px (hose_points.headD 0) ∨
      np_allclose regrasp_px (hose_points.getLastD 0)))
    (hfa : first_accept (plan_accepts h w inflated_data obstacle_coms hose_points
      regrasp_px robot_px robot_reach_px extend_px near_tol u) 5000 = none) :
    plan h w inflated_data obstacle_coms hose_points regrasp_px robot_px
        robot_reach_px extend_px near_tol u g =
      some (false, random_place_px regrasp_px g (w : ℚ) (h : ℚ)) := by
  rw [plan_of_nondegenerate hcoms hdeg, hfa]

lemma random_place_containment (regrasp_px g : V) (w h : ℕ) :
    0 ≤ (random_place_px regrasp_px g (w : ℚ) (h : ℚ)).1 ∧
    (random_place_px regrasp_px g (w : ℚ) (h : ℚ)).1 ≤ (w : ℚ) ∧
    0 ≤ (random_place_px regrasp_px g (w : ℚ) (h : ℚ)).2 ∧
    (random_place_px regrasp_px g (w : ℚ) (h : ℚ)).2 ≤ (h : ℚ) := by
  unfold random_place_px clip_to_frame np_clip
  refine ⟨le_min (le_max_right _ _) (by positivity), min_le_right _ _,
    le_min (le_max_right _ _) (by positivity), min_le_right _ _⟩

/-- C1 (amended): with identical listed inputs the two invocations either
both raise (empty centroid list) or both return, the returned success
flag is identical (the sampling loop's generator is re-seeded with the
constant 0, modelled by the shared stream `u`), and on success the whole
result is identical; the point on the fallback paths additionally depends
on the module-level generator draw `g`, which is not a function of the
listed inputs. -/
theorem plan_deterministic_given_seeded_stream
    (h w : ℕ) (inflated_data : ℕ → ℕ → ℕ) (obstacle_coms hose_points : List V)
    (regrasp_px robot_px : V) (robot_reach_px extend_px near_tol : ℚ)
    (u : ℕ → ℚ) (g₁ g₂ : V) :
    (plan h w inflated_data obstacle_coms hose_points regrasp_px robot_px
        robot_reach_px extend_px near_tol u g₁).map Prod.fst =
      (plan h w inflated_data obstacle_coms hose_points regrasp_px robot_px
        robot_reach_px extend_px near_tol u g₂).map Prod.fst ∧
    (∀ p : V,
      plan h w inflated_data obstacle_coms hose_points regrasp_px robot_px
          robot_reach_px extend_px near_tol u g₁ = some (true, p) →
      plan h w inflated_data obstacle_coms hose_points regrasp_px robot_px
          robot_reach_px extend_px near_tol u g₂ = some (true, p)) := by
  by_cases hcoms : obstacle_coms = []
  · subst hcoms
    rw [plan_of_empty_coms]
    rw [plan_of_empty_coms]
    exact ⟨rfl, fun p hc => Option.noConfusion hc⟩
  · by_cases hdeg : np_allclose regrasp_px (hose_points.headD 0) ∨
        np_allclose regrasp_px (hose_points.getLastD 0)
    · rw [plan_of_degenerate hcoms hdeg]
      rw [plan_of_degenerate hcoms hdeg]
      refine ⟨rfl, fun p hc => ?_⟩
      simp at hc
    · rcases hfa : first_accept (plan_accepts h w inflated_data obstacle_coms
          hose_points regrasp_px robot_px robot_reach_px extend_px near_tol u)
          5000 with _ | i
      · rw [plan_of_none hcoms hdeg hfa]
        rw [plan_of_none hcoms hdeg hfa]
        refine ⟨rfl, fun p hc => ?_⟩
        simp at hc
      · rw [plan_of_some hcoms hdeg hfa]
        rw [plan_of_some hcoms hdeg hfa]
        exact ⟨rfl, fun p hc => hc⟩

/-- Counterexample to C1 as stated: two invocations with identical listed
inputs (one obstacle centroid, so the rendering at line 150 succeeds and
both invocations return) but different states of the module-level
generator (draws `(0,0)` versus `(10,10)` at line 155) return different
fallback points. -/
theorem plan_fallback_differs_across_invocations :
    plan 100 100 (fun _ _ => 0) [((50 : ℚ), (50 : ℚ))] [((10 : ℚ), (10 : ℚ))]
        ((10 : ℚ), (10 : ℚ)) ((0 : ℚ), (0 : ℚ)) 750 100 (3 / 10) (fun _ => 0)
        ((0 : ℚ), (0 : ℚ)) ≠
      plan 100 100 (fun _ _ => 0) [((50 : ℚ), (50 : ℚ))] [((10 : ℚ), (10 : ℚ))]
        ((10 : ℚ), (10 : ℚ)) ((0 : ℚ), (0 : ℚ)) 750 100 (3 / 10) (fun _ => 0)
        ((10 : ℚ), (10 : ℚ)) := by
  have hcoms : ([((50 : ℚ), (50 : ℚ))] : List V) ≠ [] := by simp
  have hdeg : np_allclose (((10 : ℚ), (10 : ℚ)) : V)
      (([((10 : ℚ), (10 : ℚ))] : List V).headD 0) ∨
      np_allclose (((10 : ℚ), (10 : ℚ)) : V)
      (([((10 : ℚ), (10 : ℚ))] : List V).getLastD 0) :=
    Or.inl (by norm_num [np_allclose, List.headD])
  rw [plan_of_degenerate hcoms hdeg]
  rw [plan_of_degenerate hcoms hdeg]
  simp only [ne_eq, Option.some.injEq, Prod.mk.injEq, not_and]
  intro _
  norm_num [random_place_px, clip_to_frame, np_clip, Prod.ext_iff,
    Prod.fst_add, Prod.snd_add, min_def, max_def]

/-- C4 (amended): provided the obstacle centroid list is nonempty (an empty
one makes line 150 raise before the check), a degenerate input (candidate
regrasp point within `np.allclose` tolerance of either polyline anchor)
makes `plan` return `success=false` with the fallback point immediately,
independently of the sampling stream and of every input the loop's
predicates would read. -/
theorem plan_degenerate_short_circuit
    (h w : ℕ) (inflated_data : ℕ → ℕ → ℕ) (obstacle_coms hose_points : List V)
    (regrasp_px robot_px : V) (robot_reach_px extend_px near_tol : ℚ)
    (u : ℕ → ℚ) (g : V)
    (hcoms : obstacle_coms ≠ [])
    (hdeg : np_allclose regrasp_px (hose_points.headD 0) ∨
      np_allclose regrasp_px (hose_points.getLastD 0)) :
    plan h w inflated_data obstacle_coms hose_points regrasp_px robot_px
        robot_reach_px extend_px near_tol u g =
      some (false, random_place_px regrasp_px g (w : ℚ) (h : ℚ)) ∧
    ∀ (u' : ℕ → ℚ) (inflated_data' : ℕ → ℕ → ℕ) (obstacle_coms' : List V)
      (robot_px' : V) (robot_reach_px' extend_px' near_tol' : ℚ),
      obstacle_coms' ≠ [] →
      plan h w inflated_data' obstacle_coms' hose_points regrasp_px robot_px'
          robot_reach_px' extend_px' near_tol' u' g =
        some (false, random_place_px regrasp_px g (w : ℚ) (h : ℚ)) :=
  ⟨plan_of_degenerate hcoms hdeg,
    fun _ _ _ _ _ _ _ hcoms' => plan_of_degenerate hcoms' hdeg⟩

/-- Counterexample to C4 as stated: on a degenerate input whose centroid
list is empty, the program raises IndexError at line 150 (the model
returns `none`), so it does not return `success=false` with the fallback
point. -/
theorem plan_degenerate_crashes_on_empty_centroids :
    plan 80 120 (fun _ _ => 1) [] [((10 : ℚ), (10 : ℚ)), ((90 : ℚ), (90 : ℚ))]
        ((10 : ℚ), (10 : ℚ)) ((0 : ℚ), (0 : ℚ)) 750 100 (3 / 10) (fun _ => 1 / 2)
        ((7 : ℚ), (3 : ℚ)) = none ∧
    plan 80 120 (fun _ _ => 1) [] [((10 : ℚ), (10 : ℚ)), ((90 : ℚ), (90 : ℚ))]
        ((10 : ℚ), (10 : ℚ)) ((0 : ℚ), (0 : ℚ)) 750 100 (3 / 10) (fun _ => 1 / 2)
        ((7 : ℚ), (3 : ℚ)) ≠
      some (false, random_place_px ((10 : ℚ), (10 : ℚ)) ((7 : ℚ), (3 : ℚ))
        ((120 : ℕ) : ℚ) ((80 : ℕ) : ℚ)) := by
  refine ⟨plan_of_empty_coms, ?_⟩
  rw [plan_of_empty_coms]
  simp

/-- Witness for C4's amended theorem: a concrete degenerate call with one
obstacle centroid, the regrasp point equal to the polyline's start. -/
theorem plan_degenerate_short_circuit_witness :
    plan 100 100 (fun _ _ => 1) [((50 : ℚ), (50 : ℚ))]
        [((10 : ℚ), (10 : ℚ)), ((90 : ℚ), (90 : ℚ))] ((10 : ℚ), (10 : ℚ))
        ((0 : ℚ), (0 : ℚ)) 750 100 (3 / 10) (fun _ => 1 / 2) ((7 : ℚ), (3 : ℚ)) =
      some (false, random_place_px ((10 : ℚ), (10 : ℚ)) ((7 : ℚ), (3 : ℚ))
        ((100 : ℕ) : ℚ) ((100 : ℕ) : ℚ)) ∧
    ∀ (u' : ℕ → ℚ) (inflated_data' : ℕ → ℕ → ℕ) (obstacle_coms' : List V)
      (robot_px' : V) (robot_reach_px' extend_px' near_tol' : ℚ),
      obstacle_coms' ≠ [] →
      plan 100 100 inflated_data' obstacle_coms'
          [((10 : ℚ), (10 : ℚ)), ((90 : ℚ), (90 : ℚ))] ((10 : ℚ), (10 : ℚ)) robot_px'
          robot_reach_px' extend_px' near_tol' u' ((7 : ℚ), (3 : ℚ)) =
        some (false, random_place_px ((10 : ℚ), (10 : ℚ)) ((7 : ℚ), (3 : ℚ))
          ((100 : ℕ) : ℚ) ((100 : ℕ) : ℚ)) :=
  plan_degenerate_short_circuit 100 100 (fun _ _ => 1) [((50 : ℚ), (50 : ℚ))]
    [((10 : ℚ), (10 : ℚ)), ((90 : ℚ), (90 : ℚ))] ((10 : ℚ), (10 : ℚ))
    ((0 : ℚ), (0 : ℚ)) 750 100 (3 / 10) (fun _ => 1 / 2) ((7 : ℚ), (3 : ℚ))
    (by simp) (Or.inl (by norm_num [np_allclose, List.headD]))

/-- C7: every invocation that returns with `success=false` returns the
candidate regrasp point perturbed by the module-level generator draw and
clamped componentwise to the frame, and that point lies within
`[0, w] × [0, h]`. -/
theorem plan_fallback_containment
    (h w : ℕ) (inflated_data : ℕ → ℕ → ℕ) (obstacle_coms hose_points : List V)
    (regrasp_px robot_px : V) (robot_reach_px extend_px near_tol : ℚ)
    (u : ℕ → ℚ) (g : V) (p : V)
    (hfb : plan h w inflated_data obstacle_coms hose_points regrasp_px robot_px
      robot_reach_px extend_px near_tol u g = some (false, p)) :
    p = random_place_px regrasp_px g (w : ℚ) (h : ℚ) ∧
    0 ≤ p.1 ∧ p.1 ≤ (w : ℚ) ∧ 0 ≤ p.2 ∧ p.2 ≤ (h : ℚ) := by
  have hp : p = random_place_px regrasp_px g (w : ℚ) (h : ℚ) := by
    by_cases hcoms : obstacle_coms = []
    · subst hcoms
      rw [plan_of_empty_coms] at hfb
      exact Option.noConfusion hfb
    · by_cases hdeg : np_allclose regrasp_px (hose_points.headD 0) ∨
          np_allclose regrasp_px (hose_points.getLastD 0)
      · rw [plan_of_degenerate hcoms hdeg] at hfb
        simp only [Option.some.injEq, Prod.mk.injEq, true_and] at hfb
        exact hfb.symm
      · rcases hfa : first_accept (plan_accepts h w inflated_data obstacle_coms
            hose_points regrasp_px robot_px robot_reach_px extend_px near_tol u)
            5000 with _ | i
        · rw [plan_of_none hcoms hdeg hfa] at hfb
          simp only [Option.some.injEq, Prod.mk.injEq, true_and] at hfb
          exact hfb.symm
        · rw [plan_of_some hcoms hdeg hfa] at hfb
          simp at hfb
  obtain ⟨c1, c2, c3, c4⟩ := random_place_containment regrasp_px g w h
  refine ⟨hp, ?_, ?_, ?_, ?_⟩ <;> rw [hp]
  exacts [c1, c2, c3, c4]

/-- Witness for C7: a degenerate invocation with one obstacle centroid and
the extreme admissible draw `(150, -150)`; the perturbed point `(160, -140)`
is clamped into the frame as `(100, 0)`. -/
theorem plan_fallback_containment_witness :
    (((100 : ℚ), (0 : ℚ)) : V) =
      random_place_px ((10 : ℚ), (10 : ℚ)) ((150 : ℚ), (-150 : ℚ))
        ((100 : ℕ) : ℚ) ((100 : ℕ) : ℚ) ∧
    0 ≤ (((100 : ℚ), (0 : ℚ)) : V).1 ∧
    (((100 : ℚ), (0 : ℚ)) : V).1 ≤ ((100 : ℕ) : ℚ) ∧
    0 ≤ (((100 : ℚ), (0 : ℚ)) : V).2 ∧
    (((100 : ℚ), (0 : ℚ)) : V).2 ≤ ((100 : ℕ) : ℚ) :=
  plan_fallback_containment 100 100 (fun _ _ => 1) [((50 : ℚ), (50 : ℚ))]
    [((10 : ℚ), (10 : ℚ)), ((90 : ℚ), (90 : ℚ))] ((10 : ℚ), (10 : ℚ))
    ((0 : ℚ), (0 : ℚ)) 750 100 (3 / 10) (fun _ => 1 / 2) ((150 : ℚ), (-150 : ℚ))
    ((100 : ℚ), (0 : ℚ))
    (by
      rw [plan_of_degenerate (by simp)
        (Or.inl (by norm_num [np_allclose, List.headD]))]
      norm_num [random_place_px, clip_to_frame, np_clip, Prod.ext_iff,
        Prod.fst_add, Prod.snd_add, min_def, max_def])

/-- C9 (amended): the homotopy comparator with an empty centroid list
always returns false; an invocation of `plan` whose predictions yield zero
obstacle regions, however, raises IndexError at line 150 while rendering
the empty centroid array — before the degeneracy check, before any sample
is drawn or any predicate evaluated — and so returns nothing at all
(rather than exhausting the budget and returning the fallback). -/
theorem no_obstacle_triviality
    (h w : ℕ) (inflated_data : ℕ → ℕ → ℕ) (hose_points : List V)
    (regrasp_px robot_px : V) (robot_reach_px extend_px near_tol : ℚ)
    (u : ℕ → ℚ) (g : V) :
    (∀ (hose' : List V) (s e p : V), ¬ is_homotopy_diff hose' s e p []) ∧
    plan h w inflated_data [] hose_points regrasp_px robot_px robot_reach_px
        extend_px near_tol u g = none := by
  have hno : ∀ (hose' : List V) (s e p : V), ¬ is_homotopy_diff hose' s e p [] := by
    intro hose' s e p hc
    unfold is_homotopy_diff at hc
    dsimp only at hc
    apply hc
    intro w' hw'
    simp at hw'
  exact ⟨hno, plan_of_empty_coms⟩

/-- Counterexample to C9 as stated: a non-degenerate invocation with zero
obstacle regions returns nothing (the model of the line-150 IndexError),
not the fallback point with `success=false`. -/
theorem plan_no_obstacles_returns_nothing :
    plan 60 60 (fun _ _ => 0) [] [((5 : ℚ), (5 : ℚ)), ((55 : ℚ), (55 : ℚ))]
        ((20 : ℚ), (20 : ℚ)) ((30 : ℚ), (30 : ℚ)) 200 100 (3 / 10)
        (fun _ => 1 / 3) ((1 : ℚ), (2 : ℚ)) ≠
      some (false, random_place_px ((20 : ℚ), (20 : ℚ)) ((1 : ℚ), (2 : ℚ))
        ((60 : ℕ) : ℚ) ((60 : ℕ) : ℚ)) := by
  rw [plan_of_empty_coms]
  simp

/-- C3 (amended): sampler acceptance semantics of a non-degenerate `plan`
call whose obstacle centroid list is nonempty (an empty one makes line 150
raise before any sampling): every candidate drawn from the seeded stream
lies in the extended rectangle
`[-extend_px, w+extend_px] × [-extend_px, h+extend_px]`; the first of the
5000 candidates satisfying all five predicates (homotopy difference,
collision-free, distance preservation to both anchors, strict reachability)
is returned with `success=true`; and if none of the 5000 satisfies them,
the fallback point is returned with `success=false`. -/
theorem plan_first_acceptance
    (h w : ℕ) (inflated_data : ℕ → ℕ → ℕ) (obstacle_coms hose_points : List V)
    (regrasp_px robot_px : V) (robot_reach_px extend_px near_tol : ℚ)
    (u : ℕ → ℚ) (g : V)
    (hcoms : obstacle_coms ≠ [])
    (hdeg : ¬ (np_allclose regrasp_px (hose_points.headD 0) ∨
      np_allclose regrasp_px (hose_points.getLastD 0)))
    (hu : ∀ n, 0 ≤ u n ∧ u n ≤ 1) (hext : 0 ≤ extend_px) :
    (∀ i : ℕ,
      -extend_px ≤ (plan_samples u (h : ℚ) (w : ℚ) extend_px i).1 ∧
        (plan_samples u (h : ℚ) (w : ℚ) extend_px i).1 ≤ (w : ℚ) + extend_px ∧
        -extend_px ≤ (plan_samples u (h : ℚ) (w : ℚ) extend_px i).2 ∧
        (plan_samples u (h : ℚ) (w : ℚ) extend_px i).2 ≤ (h : ℚ) + extend_px) ∧
    (∀ i, i < 5000 →
      accepts hose_points (hose_points.headD 0) (hose_points.getLastD 0)
        obstacle_coms ⟨h, w, inflated_data⟩ robot_px robot_reach_px near_tol
        (np_norm (regrasp_px - hose_points.headD 0))
        (np_norm (regrasp_px - hose_points.getLastD 0))
        (plan_samples u (h : ℚ) (w : ℚ) extend_px i) →
      (∀ j, j < i →
        ¬ accepts hose_points (hose_points.headD 0) (hose_points.getLastD 0)
          obstacle_coms ⟨h, w, inflated_data⟩ robot_px robot_reach_px near_tol
          (np_norm (regrasp_px - hose_points.headD 0))
          (np_norm (regrasp_px - hose_points.getLastD 0))
          (plan_samples u (h : ℚ) (w : ℚ) extend_px j)) →
      plan h w inflated_data obstacle_coms hose_points regrasp_px robot_px
          robot_reach_px extend_px near_tol u g =
        some (true, plan_samples u (h : ℚ) (w : ℚ) extend_px i)) ∧
    ((∀ i, i < 5000 →
      ¬ accepts hose_points (hose_points.headD 0) (hose_points.getLastD 0)
        obstacle_coms ⟨h, w, inflated_data⟩ robot_px robot_reach_px near_tol
        (np_norm (regrasp_px - hose_points.headD 0))
        (np_norm (regrasp_px - hose_points.getLastD 0))
        (plan_samples u (h : ℚ) (w : ℚ) extend_px i)) →
      plan h w inflated_data obstacle_coms hose_points regrasp_px robot_px
          robot_reach_px extend_px near_tol u g =
        some (false, random_place_px regrasp_px g (w : ℚ) (h : ℚ))) := by
  refine ⟨?_, ?_, ?_⟩
  · intro i
    obtain ⟨hu1, hu2⟩ := hu (2 * i)
    obtain ⟨hv1, hv2⟩ := hu (2 * i + 1)
    have hw0 : (0 : ℚ) ≤ (w : ℚ) := Nat.cast_nonneg w
    have hh0 : (0 : ℚ) ≤ (h : ℚ) := Nat.cast_nonneg h
    have hsw : (0 : ℚ) ≤ (w : ℚ) + extend_px - -extend_px := by linarith
    have hsh : (0 : ℚ) ≤ (h : ℚ) + extend_px - -extend_px := by linarith
    unfold plan_samples sample_point uniform_draw
    dsimp only
    refine ⟨by nlinarith [mul_nonneg hu1 hsw],
      by nlinarith [mul_nonneg (sub_nonneg.mpr hu2) hsw],
      by nlinarith [mul_nonneg hv1 hsh],
      by nlinarith [mul_nonneg (sub_nonneg.mpr hv2) hsh]⟩
  · intro i hi hacc hmin
    exact plan_of_some hcoms hdeg (((first_accept_spec (plan_accepts h w
      inflated_data obstacle_coms hose_points regrasp_px robot_px robot_reach_px
      extend_px near_tol u) 5000).2 i).mpr ⟨hi, hacc, hmin⟩)
  · intro hnone
    exact plan_of_none hcoms hdeg ((first_accept_spec (plan_accepts h w
      inflated_data obstacle_coms hose_points regrasp_px robot_px robot_reach_px
      extend_px near_tol u) 5000).1.mpr hnone)

/-- Counterexample to C3 as stated: a non-degenerate invocation with zero
obstacle regions is inside the claim's quantifier, yet the program raises
IndexError at line 150 (the model returns `none`) — no sample is drawn and
neither of the two claimed results is returned. -/
theorem plan_nondegenerate_crashes_on_empty_centroids :
    plan 100 100 (fun _ _ => 0) [] [((10 : ℚ), (10 : ℚ)), ((90 : ℚ), (90 : ℚ))]
        ((50 : ℚ), (50 : ℚ)) ((0 : ℚ), (0 : ℚ)) 750 100 (3 / 10) (fun _ => 1 / 2)
        ((0 : ℚ), (0 : ℚ)) = none ∧
    ∀ (r : Bool × V),
      plan 100 100 (fun _ _ => 0) [] [((10 : ℚ), (10 : ℚ)), ((90 : ℚ), (90 : ℚ))]
          ((50 : ℚ), (50 : ℚ)) ((0 : ℚ), (0 : ℚ)) 750 100 (3 / 10) (fun _ => 1 / 2)
          ((0 : ℚ), (0 : ℚ)) ≠ some r := by
  refine ⟨plan_of_empty_coms, fun r => ?_⟩
  rw [plan_of_empty_coms]
  simp

/-- Witness for C3's amended theorem on a concrete non-degenerate call with
one obstacle centroid and the constant half-unit draw stream. -/
theorem plan_first_acceptance_witness :
    (∀ i : ℕ,
      -(100 : ℚ) ≤ (plan_samples (fun _ => 1 / 2) ((100 : ℕ) : ℚ) ((100 : ℕ) : ℚ) 100 i).1 ∧
        (plan_samples (fun _ => 1 / 2) ((100 : ℕ) : ℚ) ((100 : ℕ) : ℚ) 100 i).1 ≤
          ((100 : ℕ) : ℚ) + 100 ∧
        -(100 : ℚ) ≤ (plan_samples (fun _ => 1 / 2) ((100 : ℕ) : ℚ) ((100 : ℕ) : ℚ) 100 i).2 ∧
        (plan_samples (fun _ => 1 / 2) ((100 : ℕ) : ℚ) ((100 : ℕ) : ℚ) 100 i).2 ≤
          ((100 : ℕ) : ℚ) + 100) ∧
    (∀ i, i < 5000 →
      accepts [((10 : ℚ), (10 : ℚ)), ((90 : ℚ), (90 : ℚ))]
        (([((10 : ℚ), (10 : ℚ)), ((90 : ℚ), (90 : ℚ))] : List V).headD 0)
        (([((10 : ℚ), (10 : ℚ)), ((90 : ℚ), (90 : ℚ))] : List V).getLastD 0)
        [((50 : ℚ), (50 : ℚ))] ⟨100, 100, fun _ _ => 0⟩ ((0 : ℚ), (0 : ℚ)) 750 (3 / 10)
        (np_norm (((50 : ℚ), (50 : ℚ)) -
          ([((10 : ℚ), (10 : ℚ)), ((90 : ℚ), (90 : ℚ))] : List V).headD 0))
        (np_norm (((50 : ℚ), (50 : ℚ)) -
          ([((10 : ℚ), (10 : ℚ)), ((90 : ℚ), (90 : ℚ))] : List V).getLastD 0))
        (plan_samples (fun _ => 1 / 2) ((100 : ℕ) : ℚ) ((100 : ℕ) : ℚ) 100 i) →
      (∀ j, j < i →
        ¬ accepts [((10 : ℚ), (10 : ℚ)), ((90 : ℚ), (90 : ℚ))]
          (([((10 : ℚ), (10 : ℚ)), ((90 : ℚ), (90 : ℚ))] : List V).headD 0)
          (([((10 : ℚ), (10 : ℚ)), ((90 : ℚ), (90 : ℚ))] : List V).getLastD 0)
          [((50 : ℚ), (50 : ℚ))] ⟨100, 100, fun _ _ => 0⟩ ((0 : ℚ), (0 : ℚ)) 750 (3 / 10)
          (np_norm (((50 : ℚ), (50 : ℚ)) -
            ([((10 : ℚ), (10 : ℚ)), ((90 : ℚ), (90 : ℚ))] : List V).headD 0))
          (np_norm (((50 : ℚ), (50 : ℚ)) -
            ([((10 : ℚ), (10 : ℚ)), ((90 : ℚ), (90 : ℚ))] : List V).getLastD 0))
          (plan_samples (fun _ => 1 / 2) ((100 : ℕ) : ℚ) ((100 : ℕ) : ℚ) 100 j)) →
      plan 100 100 (fun _ _ => 0) [((50 : ℚ), (50 : ℚ))]
          [((10 : ℚ), (10 : ℚ)), ((90 : ℚ), (90 : ℚ))]
          ((50 : ℚ), (50 : ℚ)) ((0 : ℚ), (0 : ℚ)) 750 100 (3 / 10)
          (fun _ => 1 / 2) ((0 : ℚ), (0 : ℚ)) =
        some (true, plan_samples (fun _ => 1 / 2) ((100 : ℕ) : ℚ) ((100 : ℕ) : ℚ) 100 i)) ∧
    ((∀ i, i < 5000 →
      ¬ accepts [((10 : ℚ), (10 : ℚ)), ((90 : ℚ), (90 : ℚ))]
        (([((10 : ℚ), (10 : ℚ)), ((90 : ℚ), (90 : ℚ))] : List V).headD 0)
        (([((10 : ℚ), (10 : ℚ)), ((90 : ℚ), (90 : ℚ))] : List V).getLastD 0)
        [((50 : ℚ), (50 : ℚ))] ⟨100, 100, fun _ _ => 0⟩ ((0 : ℚ), (0 : ℚ)) 750 (3 / 10)
        (np_norm (((50 : ℚ), (50 : ℚ)) -
          ([((10 : ℚ), (10 : ℚ)), ((90 : ℚ), (90 : ℚ))] : List V).headD 0))
        (np_norm (((50 : ℚ), (50 : ℚ)) -
          ([((10 : ℚ), (10 : ℚ)), ((90 : ℚ), (90 : ℚ))] : List V).getLastD 0))
        (plan_samples (fun _ => 1 / 2) ((100 : ℕ) : ℚ) ((100 : ℕ) : ℚ) 100 i)) →
      plan 100 100 (fun _ _ => 0) [((50 : ℚ), (50 : ℚ))]
          [((10 : ℚ), (10 : ℚ)), ((90 : ℚ), (90 : ℚ))]
          ((50 : ℚ), (50 : ℚ)) ((0 : ℚ), (0 : ℚ)) 750 100 (3 / 10)
          (fun _ => 1 / 2) ((0 : ℚ), (0 : ℚ)) =
        some (false, random_place_px ((50 : ℚ), (50 : ℚ)) ((0 : ℚ), (0 : ℚ))
          ((100 : ℕ) : ℚ) ((100 : ℕ) : ℚ))) :=
  plan_first_acceptance 100 100 (fun _ _ => 0) [((50 : ℚ), (50 : ℚ))]
    [((10 : ℚ), (10 : ℚ)), ((90 : ℚ), (90 : ℚ))] ((50 : ℚ), (50 : ℚ))
    ((0 : ℚ), (0 : ℚ)) 750 100 (3 / 10) (fun _ => 1 / 2) ((0 : ℚ), (0 : ℚ))
    (by simp) (by norm_num [np_allclose, List.headD, List.getLastD])
    (fun n => by norm_num) (by norm_num)
